import Mathlib

/-!
Verification development for a CRUD wrapper over an external vector store.

The repository has two variants of the storage-access layer:

* `VectorDB` models the class `VectorDB` in `vector_db.py` (caller-supplied
  document ids, Chroma client with collections addressed by name).
* `SrcDB` models the class `VectorDB` in `src/db.py` (engine-generated uuid
  ids, one bound collection, explicit existence checks raising `ValueError`).

`Api` models the FastAPI handlers of `api.py` (no exception handling) and
`SrcApi` those of `src/api.py` (`ValueError` mapped to HTTP 404).

The external engine (Chroma) and the embedding model are out of repository
scope; they are modelled from their documented client contract: a collection
is a keyed set of (id, embedding, text/metadata) entries; `add` rejects an id
already present, `delete` of an absent id is a no-op, `get_collection` of an
absent name raises, `create_collection` of an existing name raises a unique
constraint error (or returns the existing collection under get_or_create).
The embedding model is an arbitrary function `emb : String → Vec`.
-/

namespace VecStore

/-- A fixed-size numeric embedding vector (the external model's output). -/
abbrev Vec := List Rat

/-- A stored document: id, current text (kept as metadata/document field),
and the embedding derived from the text. -/
structure Doc where
  docId : String
  text : String
  embedding : Vec
deriving DecidableEq, Repr

/-- A named collection: a list of stored documents. -/
structure Collection where
  name : String
  docs : List Doc
deriving DecidableEq, Repr

/-- The engine's store: the list of collections. -/
structure Store where
  collections : List Collection
deriving DecidableEq, Repr

/-- Error conditions surfacing from the storage layer:
`collectionNotFound` is the engine's error for `get_collection` on an absent
name, `idExists` the engine's rejection of a duplicate id in `add`,
`uniqueConstraint` the engine's rejection of `create_collection` on an
existing name, and `notFound` the `ValueError` raised by `src/db.py` itself
for an absent document id. -/
inductive DBErr where
  | collectionNotFound (name : String)
  | idExists (id : String)
  | uniqueConstraint (name : String)
  | notFound (id : String)
deriving DecidableEq, Repr

/-- Look up a collection by name (the engine keys collections by name). -/
def Store.findCollection (s : Store) (n : String) : Option Collection :=
  s.collections.find? (fun c => c.name == n)

/-- Write a (modified) collection back into the store, replacing the
entry of the same name. -/
def Store.setCollection (s : Store) (c : Collection) : Store :=
  ⟨s.collections.map (fun c0 => if c0.name == c.name then c else c0)⟩

/-- Engine `get_or_create_collection`: return the existing collection, or
append a fresh empty one. -/
def clientGetOrCreateCollection (s : Store) (n : String) :
    Store × Collection :=
  match s.findCollection n with
  | some c => (s, c)
  | none => (⟨s.collections ++ [⟨n, []⟩]⟩, ⟨n, []⟩)

/-- Engine `create_collection` without get_or_create: unique-constraint
error when the name exists. -/
def clientCreateCollection (s : Store) (n : String) :
    Except DBErr (Store × Collection) :=
  match s.findCollection n with
  | some _ => .error (.uniqueConstraint n)
  | none => .ok (⟨s.collections ++ [⟨n, []⟩]⟩, ⟨n, []⟩)

/-- Engine `get_collection`: error when the name is absent. -/
def clientGetCollection (s : Store) (n : String) : Except DBErr Collection :=
  match s.findCollection n with
  | some c => .ok c
  | none => .error (.collectionNotFound n)

/-- Engine `delete_collection`: drop the named collection. -/
def clientDeleteCollection (s : Store) (n : String) : Store :=
  ⟨s.collections.filter (fun c => c.name != n)⟩

/-- Engine `list_collections`, reduced to the list of names
(`[c.name for c in all_collections]` in `delete_collection`). -/
def clientListNames (s : Store) : List String :=
  s.collections.map (fun c => c.name)

/-- Does the collection hold a document with this id? -/
def Collection.hasId (c : Collection) (id : String) : Bool :=
  c.docs.any (fun d => d.docId == id)

/-- Engine `collection.add` of a single entry: ids are keys, so an id
already present is rejected; otherwise the entry is appended. -/
def collAdd (c : Collection) (id text : String) (e : Vec) :
    Except DBErr Collection :=
  if c.hasId id then .error (.idExists id)
  else .ok ⟨c.name, c.docs ++ [⟨id, text, e⟩]⟩

/-- Engine `collection.delete(ids=[id])`: removes the entry when present,
silent no-op when absent. -/
def collDelete (c : Collection) (id : String) : Collection :=
  ⟨c.name, c.docs.filter (fun d => d.docId != id)⟩

/-- Engine `collection.get(ids=[id])["ids"]`: the ids of matching entries. -/
def collGetIds (c : Collection) (id : String) : List String :=
  (c.docs.filter (fun d => d.docId == id)).map (fun d => d.docId)

/-- Engine `collection.update(ids=[id], documents=[t])` on a collection
with an attached embedding function: replaces the document text and the
recomputed embedding in place. -/
def collUpdate (emb : String → Vec) (c : Collection) (id t : String) :
    Collection :=
  ⟨c.name, c.docs.map (fun d => if d.docId == id then ⟨id, t, emb t⟩ else d)⟩

/-- The engine's query-result envelope: parallel arrays of ids, metadata
text fields and distances (the inner `[0]`-indexed lists of Chroma's reply,
which are of equal length for a single query). -/
structure QueryResult where
  ids : List String
  metaTexts : List String
  distances : List Rat
deriving DecidableEq, Repr

namespace VectorDB

/-- `VectorDB.create_collection` in `vector_db.py`:
`self.client.create_collection(name, get_or_create=True)`. -/
def create_collection (s : Store) (n : String) : Store × Collection :=
  clientGetOrCreateCollection s n

/-- `VectorDB.insert_document` in `vector_db.py`: get-or-create the
collection, embed the text, `collection.add` one entry with the text kept
as metadata. -/
def insert_document (emb : String → Vec) (s : Store)
    (cname docId text : String) : Except DBErr Store :=
  let sc := clientGetOrCreateCollection s cname
  match collAdd sc.2 docId text (emb text) with
  | .ok c2 => .ok (sc.1.setCollection c2)
  | .error e => .error e

/-- `VectorDB.update_document` in `vector_db.py`: `get_collection` (raises
when the collection is absent), delete the old entry, then re-insert via
`insert_document`. No document-existence check is made. -/
def update_document (emb : String → Vec) (s : Store)
    (cname docId newText : String) : Except DBErr Store :=
  match clientGetCollection s cname with
  | .error e => .error e
  | .ok c =>
      insert_document emb (s.setCollection (collDelete c docId))
        cname docId newText

/-- `VectorDB.delete_document` in `vector_db.py`: `get_collection` then
`collection.delete(ids=[doc_id])`. No document-existence check is made. -/
def delete_document (s : Store) (cname docId : String) :
    Except DBErr Store :=
  match clientGetCollection s cname with
  | .error e => .error e
  | .ok c => .ok (s.setCollection (collDelete c docId))

/-- The reshaping loop of `VectorDB.retrieve_similar_documents`: walk the
ids in engine order, pairing each with its metadata text and the score
`1.0 - distance`. -/
def reshape : List String → List String → List Rat →
    List (String × String × Rat)
  | id :: is2, t :: ts, d :: ds => (id, t, 1 - d) :: reshape is2 ts ds
  | _, _, _ => []

/-- `VectorDB.retrieve_similar_documents` in `vector_db.py`:
`get_collection`, embed the query, ask the engine for the `top_n` nearest
entries, and reshape its envelope into (doc_id, text, score) triples.
The engine's ranked answer is the abstract parameter `engineQuery`. -/
def retrieve_similar_documents (emb : String → Vec)
    (engineQuery : Collection → Vec → Nat → QueryResult)
    (s : Store) (cname queryText : String) (topN : Nat) :
    Except DBErr (List (String × String × Rat)) :=
  match clientGetCollection s cname with
  | .error e => .error e
  | .ok c =>
      let r := engineQuery c (emb queryText) topN
      .ok (reshape r.ids r.metaTexts r.distances)

/-- `VectorDB.delete_collection` in `vector_db.py`: list the existing
collection names; delete only when the name is among them, otherwise skip. -/
def delete_collection (s : Store) (n : String) : Store :=
  if (clientListNames s).contains n then clientDeleteCollection s n else s

end VectorDB

namespace SrcDB

/-- `VectorDB.create_collection` in `src/db.py`: try a strict create; on
the engine's unique-constraint error, fall back to `get_collection` and
reuse the existing collection. -/
def create_collection (s : Store) (n : String) :
    Except DBErr (Store × Collection) :=
  match clientCreateCollection s n with
  | .ok r => .ok r
  | .error _ =>
      match clientGetCollection s n with
      | .ok c => .ok (s, c)
      | .error e => .error e

/-- `VectorDB.insert_document` in `src/db.py`: add the text under a freshly
generated uuid (`genId` stands for `str(uuid.uuid4())`); the collection's
attached embedding function computes the embedding from the document text.
Returns the generated id alongside the new collection state. -/
def insert_document (emb : String → Vec) (c : Collection)
    (genId text : String) : Except DBErr (Collection × String) :=
  match collAdd c genId text (emb text) with
  | .ok c2 => .ok (c2, genId)
  | .error e => .error e

/-- `VectorDB.update_document` in `src/db.py`: check existence via
`collection.get(ids=[id])["ids"]`; raise `ValueError` (modelled as
`DBErr.notFound`) when empty, else `collection.update` in place. -/
def update_document (emb : String → Vec) (c : Collection)
    (docId newText : String) : Except DBErr Collection :=
  if (collGetIds c docId).isEmpty then .error (.notFound docId)
  else .ok (collUpdate emb c docId newText)

/-- `VectorDB.delete_document` in `src/db.py`: check existence via
`collection.get(ids=[id])["ids"]`; raise `ValueError` when empty, else
`collection.delete`. -/
def delete_document (c : Collection) (docId : String) :
    Except DBErr Collection :=
  if (collGetIds c docId).isEmpty then .error (.notFound docId)
  else .ok (collDelete c docId)

end SrcDB

/-- An HTTP-level outcome: a normal JSON reply, an `HTTPException` raised
by the handler (status and detail), or an exception left uncaught by the
handler, which the framework turns into a generic server error. -/
inductive ApiResp where
  | ok (msg : String)
  | clientError (status : Nat) (detail : String)
  | serverError (e : DBErr)
deriving DecidableEq, Repr

namespace Api

/-- `update_document` handler in `api.py`: calls the storage layer with no
try/except, so any storage exception propagates uncaught. -/
def update_document (emb : String → Vec) (s : Store)
    (cname docId text : String) : ApiResp × Store :=
  match VectorDB.update_document emb s cname docId text with
  | .ok s2 => (.ok "updated", s2)
  | .error e => (.serverError e, s)

/-- `delete_document` handler in `api.py`: calls the storage layer with no
try/except, so any storage exception propagates uncaught. -/
def delete_document (s : Store) (cname docId : String) : ApiResp × Store :=
  match VectorDB.delete_document s cname docId with
  | .ok s2 => (.ok "deleted", s2)
  | .error e => (.serverError e, s)

end Api

namespace SrcApi

/-- `update_existing_document` handler in `src/api.py`: `try` the storage
update, catch `ValueError` and re-raise it as `HTTPException(404)`; any
other exception propagates uncaught. -/
def update_existing_document (emb : String → Vec) (c : Collection)
    (docId newText : String) : ApiResp × Collection :=
  match SrcDB.update_document emb c docId newText with
  | .ok c2 => (.ok "updated", c2)
  | .error (.notFound m) => (.clientError 404 m, c)
  | .error e => (.serverError e, c)

/-- `delete_existing_document` handler in `src/api.py`: `try` the storage
delete, catch `ValueError` and re-raise it as `HTTPException(404)`; any
other exception propagates uncaught. -/
def delete_existing_document (c : Collection) (docId : String) :
    ApiResp × Collection :=
  match SrcDB.delete_document c docId with
  | .ok c2 => (.ok "deleted", c2)
  | .error (.notFound m) => (.clientError 404 m, c)
  | .error e => (.serverError e, c)

end SrcApi

/-! ### Invariant predicates and reachable states -/

/-- The ids currently stored in a collection, in storage order. -/
def Collection.ids (c : Collection) : List String :=
  c.docs.map (fun d => d.docId)

/-- Each document id occurs at most once within the collection. -/
def Collection.idsUnique (c : Collection) : Prop :=
  c.ids.Nodup

/-- Id uniqueness holds in every collection of the store. -/
def Store.idsUnique (s : Store) : Prop :=
  ∀ c ∈ s.collections, c.idsUnique

/-- Every stored embedding equals the embedding function applied to the
document's current text. -/
def Collection.embCorrect (emb : String → Vec) (c : Collection) : Bool :=
  c.docs.all (fun d => d.embedding == emb d.text)

/-- `Collection.embCorrect` holds in every collection of the store. -/
def Store.embCorrect (emb : String → Vec) (s : Store) : Bool :=
  s.collections.all (Collection.embCorrect emb)

/-- Store states of the caller-supplied-id variant reachable from a fresh
client (empty store) through the operations of `vector_db.py`. An
operation that raises leaves the store as it was, so only `ok` outcomes
produce new states. -/
inductive ReachA (emb : String → Vec) : Store → Prop where
  | init : ReachA emb ⟨[]⟩
  | createColl {s : Store} (n : String) : ReachA emb s →
      ReachA emb (VectorDB.create_collection s n).1
  | insertDoc {s s2 : Store} (cn id t : String) : ReachA emb s →
      VectorDB.insert_document emb s cn id t = .ok s2 → ReachA emb s2
  | updateDoc {s s2 : Store} (cn id t : String) : ReachA emb s →
      VectorDB.update_document emb s cn id t = .ok s2 → ReachA emb s2
  | deleteDoc {s s2 : Store} (cn id : String) : ReachA emb s →
      VectorDB.delete_document s cn id = .ok s2 → ReachA emb s2
  | deleteColl {s : Store} (n : String) : ReachA emb s →
      ReachA emb (VectorDB.delete_collection s n)

/-- Collection states of the engine-generated-id variant reachable from a
freshly created collection through the operations of `src/db.py`. The
generated uuid is an arbitrary string `genId`; the engine rejects an id
already present, so only `ok` outcomes produce new states. -/
inductive ReachB (emb : String → Vec) : Collection → Prop where
  | created (n : String) : ReachB emb ⟨n, []⟩
  | insertDoc {c c2 : Collection} (genId t : String) : ReachB emb c →
      SrcDB.insert_document emb c genId t = .ok (c2, genId) → ReachB emb c2
  | updateDoc {c c2 : Collection} (id t : String) : ReachB emb c →
      SrcDB.update_document emb c id t = .ok c2 → ReachB emb c2
  | deleteDoc {c c2 : Collection} (id : String) : ReachB emb c →
      SrcDB.delete_document c id = .ok c2 → ReachB emb c2

/-! ### Concrete fixtures used in witnesses and counterexamples -/

/-- A concrete stand-in for the external embedding model. -/
def embLen : String → Vec := fun t => [(t.length : Rat)]

/-- A store holding one empty collection named `c`. -/
def storeC : Store := ⟨[⟨"c", []⟩]⟩

/-- `storeC` after `update_document` of the absent id `d`: the document
has been inserted. -/
def storeCD : Store := ⟨[⟨"c", [⟨"d", "t", embLen "t"⟩]⟩]⟩

/-- A collection holding one document with id `x`. -/
def collX : Collection := ⟨"c", [⟨"x", "hello", embLen "hello"⟩]⟩

/-- A store holding only `collX`. -/
def storeX : Store := ⟨[collX]⟩

/-- A one-hit engine reply used in concrete witnesses. -/
def engine1 : Collection → Vec → Nat → QueryResult :=
  fun _ _ _ => ⟨["x"], ["hello"], [0]⟩

/-! ### Helper lemmas about the engine model -/

theorem findCollection_name {s : Store} {n : String} {c : Collection}
    (h : s.findCollection n = some c) : c.name = n := by
  have h2 := List.find?_some h
  exact eq_of_beq h2

theorem mem_of_findCollection {s : Store} {n : String} {c : Collection}
    (h : s.findCollection n = some c) : c ∈ s.collections :=
  List.mem_of_find?_eq_some h

theorem find?_map_set_self (l : List Collection) (c2 : Collection)
    (h : (List.find? (fun c => c.name == c2.name) l).isSome = true) :
    List.find? (fun c => c.name == c2.name)
      (l.map (fun c0 => if c0.name == c2.name then c2 else c0)) = some c2 := by
  induction l with
  | nil => simp at h
  | cons a l2 ih =>
      by_cases ha : (a.name == c2.name) = true
      · simp only [List.map_cons, if_pos ha, List.find?_cons, beq_self_eq_true]
      · have ha2 : (a.name == c2.name) = false := by simpa using ha
        simp only [List.find?_cons, ha2] at h
        simp only [List.map_cons, List.find?_cons, ha2, Bool.false_eq_true,
          if_false]
        exact ih h

theorem find?_map_set_other (l : List Collection) (c2 : Collection)
    (n : String) (hn : c2.name ≠ n) :
    List.find? (fun c => c.name == n)
      (l.map (fun c0 => if c0.name == c2.name then c2 else c0)) =
      List.find? (fun c => c.name == n) l := by
  induction l with
  | nil => rfl
  | cons a l2 ih =>
      by_cases ha : (a.name == c2.name) = true
      · have ha2 : a.name = c2.name := eq_of_beq ha
        have h1 : (c2.name == n) = false := beq_eq_false_iff_ne.mpr hn
        have h2 : (a.name == n) = false := by rw [ha2]; exact h1
        simp only [List.map_cons, if_pos ha, List.find?_cons, h1, h2]
        exact ih
      · cases hc : (a.name == n) with
        | true => simp only [List.map_cons, if_neg ha, List.find?_cons, hc]
        | false =>
            simp only [List.map_cons, if_neg ha, List.find?_cons, hc]
            exact ih

theorem findCollection_set_self (s : Store) (c2 : Collection) (n : String)
    (hn : c2.name = n) (h : (s.findCollection n).isSome = true) :
    (s.setCollection c2).findCollection n = some c2 := by
  subst hn
  exact find?_map_set_self s.collections c2 h

theorem findCollection_set_other (s : Store) (c2 : Collection) (n : String)
    (hn : c2.name ≠ n) :
    (s.setCollection c2).findCollection n = s.findCollection n :=
  find?_map_set_other s.collections c2 n hn

theorem clientListNames_contains_iff (s : Store) (n : String) :
    (clientListNames s).contains n = true ↔
      (s.findCollection n).isSome = true := by
  simp only [clientListNames, Store.findCollection, List.elem_iff,
    List.mem_map, List.find?_isSome]
  constructor
  · rintro ⟨c, hc, hn⟩; exact ⟨c, hc, by simp [hn]⟩
  · rintro ⟨c, hc, hn⟩; exact ⟨c, hc, by simpa using hn⟩

theorem clientDeleteCollection_find_self (s : Store) (n : String) :
    (clientDeleteCollection s n).findCollection n = none := by
  rw [Store.findCollection, List.find?_eq_none]
  intro c hc
  have := (List.mem_filter.mp hc).2
  simpa [bne] using this

theorem find?_filter_keep (l : List Collection) (n n2 : String)
    (h : n2 ≠ n) :
    List.find? (fun c => c.name == n2)
      (List.filter (fun c => c.name != n) l) =
      List.find? (fun c => c.name == n2) l := by
  induction l with
  | nil => rfl
  | cons a l2 ih =>
      by_cases ha : (a.name == n2) = true
      · have h2 : a.name = n2 := eq_of_beq ha
        have h1 : (a.name != n) = true := by simp [bne, h2, h]
        simp [List.filter_cons, h1, List.find?_cons, ha]
      · have ha2 : (a.name == n2) = false := by simpa using ha
        cases h1 : (a.name != n) with
        | true =>
            simp only [List.filter_cons, h1, if_true, List.find?_cons, ha2]
            exact ih
        | false =>
            simp only [List.filter_cons, h1, Bool.false_eq_true, if_false,
              List.find?_cons, ha2]
            exact ih

theorem clientDeleteCollection_find_other (s : Store) (n n2 : String)
    (h : n2 ≠ n) :
    (clientDeleteCollection s n).findCollection n2 = s.findCollection n2 :=
  find?_filter_keep s.collections n n2 h

theorem collGetIds_isEmpty (c : Collection) (id : String) :
    (collGetIds c id).isEmpty = !(c.hasId id) := by
  unfold collGetIds Collection.hasId
  induction c.docs with
  | nil => rfl
  | cons d l ih =>
      cases hd : (d.docId == id) with
      | true => simp [List.filter_cons, List.any_cons, hd]
      | false => simpa [List.filter_cons, List.any_cons, hd] using ih

theorem collDelete_name (c : Collection) (id : String) :
    (collDelete c id).name = c.name := rfl

theorem hasId_collDelete (c : Collection) (id : String) :
    (collDelete c id).hasId id = false := by
  unfold collDelete Collection.hasId
  rw [Bool.eq_false_iff]
  intro h
  obtain ⟨d, hd, he⟩ := List.any_eq_true.mp h
  have := (List.mem_filter.mp hd).2
  simp [bne] at this
  simp [this] at he

theorem hasId_eq_false_iff (c : Collection) (id : String) :
    c.hasId id = false ↔ id ∉ c.ids := by
  unfold Collection.hasId Collection.ids
  rw [← Bool.not_eq_true, List.any_eq_true]
  simp only [List.mem_map]
  constructor
  · rintro h ⟨d, hd, he⟩
    exact h ⟨d, hd, by simp [he]⟩
  · rintro h ⟨d, hd, he⟩
    exact h ⟨d, hd, by simpa using he⟩

theorem mem_setCollection {s : Store} {c2 c3 : Collection}
    (h : c3 ∈ (s.setCollection c2).collections) :
    c3 = c2 ∨ c3 ∈ s.collections := by
  rcases List.mem_map.mp h with ⟨c0, hc0, he⟩
  by_cases hb : (c0.name == c2.name) = true
  · rw [if_pos hb] at he
    exact Or.inl he.symm
  · rw [if_neg hb] at he
    exact Or.inr (he ▸ hc0)

/-! ### Preservation of id uniqueness -/

theorem idsUnique_collAdd {c c2 : Collection} {id t : String} {e : Vec}
    (hu : c.idsUnique) (h : collAdd c id t e = .ok c2) : c2.idsUnique := by
  unfold collAdd at h
  by_cases hb : c.hasId id = true
  · simp [hb] at h
  · have hb2 : c.hasId id = false := by simpa using hb
    simp only [hb2, Bool.false_eq_true, if_false, Except.ok.injEq] at h
    subst h
    unfold Collection.idsUnique Collection.ids at *
    simp only [List.map_append, List.map_cons, List.map_nil]
    rw [List.nodup_append]
    refine ⟨hu, List.nodup_singleton id, ?_⟩
    intro a ha hmem
    rcases List.mem_singleton.mp hmem with rfl
    exact (hasId_eq_false_iff c a).mp hb2 ha

theorem idsUnique_collDelete (c : Collection) (id : String)
    (hu : c.idsUnique) : (collDelete c id).idsUnique := by
  unfold Collection.idsUnique Collection.ids collDelete at *
  exact List.Nodup.sublist (List.Sublist.map _ (List.filter_sublist c.docs)) hu

theorem ids_collUpdate (emb : String → Vec) (c : Collection) (id t : String) :
    (collUpdate emb c id t).ids = c.ids := by
  unfold collUpdate Collection.ids
  induction c.docs with
  | nil => rfl
  | cons d l ih =>
      by_cases hd : (d.docId == id) = true
      · have he : d.docId = id := eq_of_beq hd
        simp only [List.map_cons, if_pos hd]
        rw [he]
        exact congrArg _ ih
      · simp only [List.map_cons, if_neg hd]
        exact congrArg _ ih

theorem idsUnique_collUpdate (emb : String → Vec) (c : Collection)
    (id t : String) (hu : c.idsUnique) : (collUpdate emb c id t).idsUnique := by
  unfold Collection.idsUnique at *
  rw [ids_collUpdate]
  exact hu

theorem idsUnique_setCollection {s : Store} {c2 : Collection}
    (hu : Store.idsUnique s) (h2 : c2.idsUnique) :
    Store.idsUnique (s.setCollection c2) := by
  intro c3 hc3
  rcases mem_setCollection hc3 with rfl | h3
  · exact h2
  · exact hu c3 h3

theorem idsUnique_getOrCreate (s : Store) (n : String)
    (hu : Store.idsUnique s) :
    Store.idsUnique (clientGetOrCreateCollection s n).1 ∧
      (clientGetOrCreateCollection s n).2.idsUnique := by
  unfold clientGetOrCreateCollection
  cases hf : s.findCollection n with
  | some c => exact ⟨hu, hu c (mem_of_findCollection hf)⟩
  | none =>
      constructor
      · intro c3 hc3
        rcases List.mem_append.mp hc3 with h1 | h1
        · exact hu c3 h1
        · rcases List.mem_singleton.mp h1 with rfl
          exact List.nodup_nil
      · exact List.nodup_nil

theorem insert_document_uniq {emb : String → Vec} {s s2 : Store}
    {cn id t : String} (hu : Store.idsUnique s)
    (h : VectorDB.insert_document emb s cn id t = .ok s2) :
    Store.idsUnique s2 := by
  obtain ⟨hu1, hu2⟩ := idsUnique_getOrCreate s cn hu
  cases hc : collAdd (clientGetOrCreateCollection s cn).2 id t (emb t) with
  | error e => simp [VectorDB.insert_document, hc] at h
  | ok c2 =>
      simp only [VectorDB.insert_document, hc, Except.ok.injEq] at h
      subst h
      exact idsUnique_setCollection hu1 (idsUnique_collAdd hu2 hc)

theorem delete_document_uniq {s s2 : Store} {cn id : String}
    (hu : Store.idsUnique s)
    (h : VectorDB.delete_document s cn id = .ok s2) :
    Store.idsUnique s2 := by
  cases hf : s.findCollection cn with
  | none => simp [VectorDB.delete_document, clientGetCollection, hf] at h
  | some c =>
      simp only [VectorDB.delete_document, clientGetCollection, hf,
        Except.ok.injEq] at h
      subst h
      exact idsUnique_setCollection hu
        (idsUnique_collDelete c id (hu c (mem_of_findCollection hf)))

theorem update_document_uniq {emb : String → Vec} {s s2 : Store}
    {cn id t : String} (hu : Store.idsUnique s)
    (h : VectorDB.update_document emb s cn id t = .ok s2) :
    Store.idsUnique s2 := by
  cases hf : s.findCollection cn with
  | none => simp [VectorDB.update_document, clientGetCollection, hf] at h
  | some c =>
      simp only [VectorDB.update_document, clientGetCollection, hf] at h
      exact insert_document_uniq
        (idsUnique_setCollection hu
          (idsUnique_collDelete c id (hu c (mem_of_findCollection hf)))) h

theorem delete_collection_uniq (s : Store) (n : String)
    (hu : Store.idsUnique s) :
    Store.idsUnique (VectorDB.delete_collection s n) := by
  unfold VectorDB.delete_collection clientDeleteCollection
  by_cases hb : ((clientListNames s).contains n) = true
  · rw [if_pos hb]
    intro c hc
    exact hu c (List.mem_of_mem_filter hc)
  · rw [if_neg hb]
    exact hu

theorem srcdb_insert_uniq {emb : String → Vec} {c c2 : Collection}
    {gid t rid : String} (hu : c.idsUnique)
    (h : SrcDB.insert_document emb c gid t = .ok (c2, rid)) :
    c2.idsUnique := by
  cases hc : collAdd c gid t (emb t) with
  | error e => simp [SrcDB.insert_document, hc] at h
  | ok c3 =>
      simp only [SrcDB.insert_document, hc, Except.ok.injEq,
        Prod.mk.injEq] at h
      exact h.1 ▸ idsUnique_collAdd hu hc

theorem srcdb_update_uniq {emb : String → Vec} {c c2 : Collection}
    {id t : String} (hu : c.idsUnique)
    (h : SrcDB.update_document emb c id t = .ok c2) : c2.idsUnique := by
  unfold SrcDB.update_document at h
  by_cases hb : (collGetIds c id).isEmpty = true
  · simp [hb] at h
  · simp only [hb, Bool.false_eq_true, if_false, Except.ok.injEq] at h
    exact h ▸ idsUnique_collUpdate emb c id t hu

theorem srcdb_delete_uniq {c c2 : Collection} {id : String}
    (hu : c.idsUnique) (h : SrcDB.delete_document c id = .ok c2) :
    c2.idsUnique := by
  unfold SrcDB.delete_document at h
  by_cases hb : (collGetIds c id).isEmpty = true
  · simp [hb] at h
  · simp only [hb, Bool.false_eq_true, if_false, Except.ok.injEq] at h
    exact h ▸ idsUnique_collDelete c id hu

/-! ### Preservation of embedding correctness -/

theorem collection_embCorrect_iff (emb : String → Vec) (c : Collection) :
    Collection.embCorrect emb c = true ↔
      ∀ d ∈ c.docs, d.embedding = emb d.text := by
  simp [Collection.embCorrect, List.all_eq_true]

theorem store_embCorrect_iff (emb : String → Vec) (s : Store) :
    Store.embCorrect emb s = true ↔
      ∀ c ∈ s.collections, Collection.embCorrect emb c = true := by
  simp [Store.embCorrect, List.all_eq_true]

theorem embCorrect_collAdd {emb : String → Vec} {c c2 : Collection}
    {id t : String} (hc : Collection.embCorrect emb c = true)
    (h : collAdd c id t (emb t) = .ok c2) :
    Collection.embCorrect emb c2 = true := by
  unfold collAdd at h
  by_cases hb : c.hasId id = true
  · simp [hb] at h
  · simp only [hb, Bool.false_eq_true, if_false, Except.ok.injEq] at h
    subst h
    rw [collection_embCorrect_iff] at *
    intro d hd
    rcases List.mem_append.mp hd with h1 | h1
    · exact hc d h1
    · rcases List.mem_singleton.mp h1 with rfl
      rfl

theorem embCorrect_collDelete {emb : String → Vec} {c : Collection}
    (id : String) (hc : Collection.embCorrect emb c = true) :
    Collection.embCorrect emb (collDelete c id) = true := by
  rw [collection_embCorrect_iff] at *
  intro d hd
  exact hc d (List.mem_of_mem_filter hd)

theorem embCorrect_collUpdate {emb : String → Vec} {c : Collection}
    (id t : String) (hc : Collection.embCorrect emb c = true) :
    Collection.embCorrect emb (collUpdate emb c id t) = true := by
  rw [collection_embCorrect_iff] at *
  intro d hd
  rcases List.mem_map.mp hd with ⟨d0, hd0, he⟩
  by_cases hb : (d0.docId == id) = true
  · rw [if_pos hb] at he
    rw [← he]
  · rw [if_neg hb] at he
    exact he ▸ hc d0 hd0

theorem embCorrect_setCollection {emb : String → Vec} {s : Store}
    {c2 : Collection} (hs : Store.embCorrect emb s = true)
    (h2 : Collection.embCorrect emb c2 = true) :
    Store.embCorrect emb (s.setCollection c2) = true := by
  rw [store_embCorrect_iff] at *
  intro c3 hc3
  rcases mem_setCollection hc3 with rfl | h3
  · exact h2
  · exact hs c3 h3

theorem embCorrect_getOrCreate {emb : String → Vec} (s : Store) (n : String)
    (hs : Store.embCorrect emb s = true) :
    Store.embCorrect emb (clientGetOrCreateCollection s n).1 = true ∧
      Collection.embCorrect emb (clientGetOrCreateCollection s n).2 = true := by
  unfold clientGetOrCreateCollection
  cases hf : s.findCollection n with
  | some c =>
      exact ⟨hs, (store_embCorrect_iff emb s).mp hs c (mem_of_findCollection hf)⟩
  | none =>
      constructor
      · rw [store_embCorrect_iff] at *
        intro c3 hc3
        rcases List.mem_append.mp hc3 with h1 | h1
        · exact hs c3 h1
        · rcases List.mem_singleton.mp h1 with rfl
          rfl
      · rfl

theorem insert_document_embCorrect {emb : String → Vec} {s s2 : Store}
    {cn id t : String} (hs : Store.embCorrect emb s = true)
    (h : VectorDB.insert_document emb s cn id t = .ok s2) :
    Store.embCorrect emb s2 = true := by
  obtain ⟨h1, h2⟩ := embCorrect_getOrCreate s cn hs
  cases hc : collAdd (clientGetOrCreateCollection s cn).2 id t (emb t) with
  | error e => simp [VectorDB.insert_document, hc] at h
  | ok c2 =>
      simp only [VectorDB.insert_document, hc, Except.ok.injEq] at h
      subst h
      exact embCorrect_setCollection h1 (embCorrect_collAdd h2 hc)

theorem delete_document_embCorrect {emb : String → Vec} {s s2 : Store}
    {cn id : String} (hs : Store.embCorrect emb s = true)
    (h : VectorDB.delete_document s cn id = .ok s2) :
    Store.embCorrect emb s2 = true := by
  cases hf : s.findCollection cn with
  | none => simp [VectorDB.delete_document, clientGetCollection, hf] at h
  | some c =>
      simp only [VectorDB.delete_document, clientGetCollection, hf,
        Except.ok.injEq] at h
      subst h
      exact embCorrect_setCollection hs
        (embCorrect_collDelete id
          ((store_embCorrect_iff emb s).mp hs c (mem_of_findCollection hf)))

theorem update_document_embCorrect {emb : String → Vec} {s s2 : Store}
    {cn id t : String} (hs : Store.embCorrect emb s = true)
    (h : VectorDB.update_document emb s cn id t = .ok s2) :
    Store.embCorrect emb s2 = true := by
  cases hf : s.findCollection cn with
  | none => simp [VectorDB.update_document, clientGetCollection, hf] at h
  | some c =>
      simp only [VectorDB.update_document, clientGetCollection, hf] at h
      exact insert_document_embCorrect
        (embCorrect_setCollection hs
          (embCorrect_collDelete id
            ((store_embCorrect_iff emb s).mp hs c (mem_of_findCollection hf)))) h

theorem delete_collection_embCorrect {emb : String → Vec} (s : Store)
    (n : String) (hs : Store.embCorrect emb s = true) :
    Store.embCorrect emb (VectorDB.delete_collection s n) = true := by
  unfold VectorDB.delete_collection clientDeleteCollection
  by_cases hb : ((clientListNames s).contains n) = true
  · rw [if_pos hb]
    rw [store_embCorrect_iff] at *
    intro c hc
    exact hs c (List.mem_of_mem_filter hc)
  · rw [if_neg hb]
    exact hs

theorem srcdb_insert_embCorrect {emb : String → Vec} {c c2 : Collection}
    {gid t rid : String} (hc : Collection.embCorrect emb c = true)
    (h : SrcDB.insert_document emb c gid t = .ok (c2, rid)) :
    Collection.embCorrect emb c2 = true := by
  cases ha : collAdd c gid t (emb t) with
  | error e => simp [SrcDB.insert_document, ha] at h
  | ok c3 =>
      simp only [SrcDB.insert_document, ha, Except.ok.injEq,
        Prod.mk.injEq] at h
      exact h.1 ▸ embCorrect_collAdd hc ha

theorem srcdb_update_embCorrect {emb : String → Vec} {c c2 : Collection}
    {id t : String} (hc : Collection.embCorrect emb c = true)
    (h : SrcDB.update_document emb c id t = .ok c2) :
    Collection.embCorrect emb c2 = true := by
  unfold SrcDB.update_document at h
  by_cases hb : (collGetIds c id).isEmpty = true
  · simp [hb] at h
  · simp only [hb, Bool.false_eq_true, if_false, Except.ok.injEq] at h
    exact h ▸ embCorrect_collUpdate id t hc

theorem srcdb_delete_embCorrect {emb : String → Vec} {c c2 : Collection}
    {id : String} (hc : Collection.embCorrect emb c = true)
    (h : SrcDB.delete_document c id = .ok c2) :
    Collection.embCorrect emb c2 = true := by
  unfold SrcDB.delete_document at h
  by_cases hb : (collGetIds c id).isEmpty = true
  · simp [hb] at h
  · simp only [hb, Bool.false_eq_true, if_false, Except.ok.injEq] at h
    exact h ▸ embCorrect_collDelete id hc

/-! ### Further helpers: absent-id behaviour and the reshape loop -/

theorem srcdb_update_absent {emb : String → Vec} {c : Collection}
    {id t : String} (h : c.hasId id = false) :
    SrcDB.update_document emb c id t = .error (.notFound id) := by
  have hg : (collGetIds c id).isEmpty = true := by
    rw [collGetIds_isEmpty, h]
    rfl
  simp [SrcDB.update_document, hg]

theorem srcdb_delete_absent {c : Collection} {id : String}
    (h : c.hasId id = false) :
    SrcDB.delete_document c id = .error (.notFound id) := by
  have hg : (collGetIds c id).isEmpty = true := by
    rw [collGetIds_isEmpty, h]
    rfl
  simp [SrcDB.delete_document, hg]

theorem reshape_eq_zipWith (is2 ts : List String) (ds : List Rat) :
    VectorDB.reshape is2 ts ds =
      List.zipWith (fun (p : String × String) (d : Rat) => (p.1, p.2, 1 - d))
        (is2.zip ts) ds := by
  induction is2 generalizing ts ds with
  | nil => cases ts <;> cases ds <;> rfl
  | cons a l ih =>
      cases ts with
      | nil => cases ds <;> rfl
      | cons b ts2 =>
          cases ds with
          | nil => rfl
          | cons d ds2 =>
              simp only [VectorDB.reshape, List.zip_cons_cons,
                List.zipWith_cons_cons]
              exact congrArg _ (ih ts2 ds2)

/-! ### The claims -/

/-- C1, counterexample: in the caller-supplied-id variant (`vector_db.py`),
update and delete of an absent doc id in an existing collection raise no
not-found condition: delete returns normally leaving the store as it was,
and update returns normally after inserting the document. -/
theorem claim_C1_counterexample :
    VectorDB.delete_document storeC "c" "d" = .ok storeC ∧
      VectorDB.update_document embLen storeC "c" "d" "t" = .ok storeCD := by
  constructor <;> rfl

/-- C1, amended: in the engine-generated-id variant (`src/db.py`), update
and delete check existence by id first and raise the not-found condition,
instead of mutating, whenever the id is absent; the caller-supplied-id
variant performs no such check. -/
theorem claim_C1_srcdb_checks_existence (emb : String → Vec)
    (c : Collection) (id t : String) (h : c.hasId id = false) :
    SrcDB.update_document emb c id t = .error (.notFound id) ∧
      SrcDB.delete_document c id = .error (.notFound id) :=
  ⟨srcdb_update_absent h, srcdb_delete_absent h⟩

/-- Witness for C1 at a concrete collection and absent id. -/
theorem claim_C1_witness :
    SrcDB.update_document embLen collX "y" "t" = .error (.notFound "y") ∧
      SrcDB.delete_document collX "y" = .error (.notFound "y") :=
  claim_C1_srcdb_checks_existence embLen collX "y" "t" (by decide)

/-- C2, counterexample: in the caller-supplied-id variant, updating a
nonexistent document id signals nothing and adds a document: the
collection's contents after the call differ from before. -/
theorem claim_C2_counterexample :
    VectorDB.update_document embLen storeC "c" "d" "t" = .ok storeCD ∧
      storeCD ≠ storeC := by
  constructor
  · rfl
  · decide

/-- C2, amended: in the engine-generated-id variant, update or delete of a
nonexistent id signals the not-found condition as a 404 response and the
collection's contents are exactly what they were before the call; the
caller-supplied-id variant signals no not-found condition at all. -/
theorem claim_C2_notfound_unchanged (emb : String → Vec) (c : Collection)
    (id t : String) (h : c.hasId id = false) :
    SrcApi.update_existing_document emb c id t = (.clientError 404 id, c) ∧
      SrcApi.delete_existing_document c id = (.clientError 404 id, c) := by
  constructor
  · simp [SrcApi.update_existing_document, srcdb_update_absent h]
  · simp [SrcApi.delete_existing_document, srcdb_delete_absent h]

/-- Witness for C2 at a concrete collection and absent id. -/
theorem claim_C2_witness :
    SrcApi.update_existing_document embLen collX "z" "t" =
        (.clientError 404 "z", collX) ∧
      SrcApi.delete_existing_document collX "z" =
        (.clientError 404 "z", collX) :=
  claim_C2_notfound_unchanged embLen collX "z" "t" (by decide)

/-- C3: in the caller-supplied-id variant, `update_document` produces the
same final store state (or error) as `delete_document` followed by
`insert_document` with the new text. -/
theorem claim_C3_update_is_delete_then_reinsert (emb : String → Vec)
    (s : Store) (cname docId t : String) :
    VectorDB.update_document emb s cname docId t =
      (VectorDB.delete_document s cname docId).bind
        (fun s1 => VectorDB.insert_document emb s1 cname docId t) := by
  unfold VectorDB.update_document VectorDB.delete_document
  cases clientGetCollection s cname <;> rfl

/-- C4: creating a collection whose name already exists raises no error,
returns the existing collection, and leaves the store unchanged, in both
variants. -/
theorem claim_C4_create_collection_idempotent (s : Store) (n : String)
    (c : Collection) (h : s.findCollection n = some c) :
    VectorDB.create_collection s n = (s, c) ∧
      SrcDB.create_collection s n = .ok (s, c) := by
  constructor
  · simp [VectorDB.create_collection, clientGetOrCreateCollection, h]
  · simp [SrcDB.create_collection, clientCreateCollection,
      clientGetCollection, h]

/-- Witness for C4 at a store already holding the collection. -/
theorem claim_C4_witness :
    VectorDB.create_collection storeC "c" = (storeC, ⟨"c", []⟩) ∧
      SrcDB.create_collection storeC "c" = .ok (storeC, ⟨"c", []⟩) :=
  claim_C4_create_collection_idempotent storeC "c" ⟨"c", []⟩ rfl

/-- C5: retrieval reshapes the engine's ranked envelope (parallel arrays
of ids, metadata texts, distances) into the ordered list of
(doc_id, text, score) triples in engine order, with score = 1 − distance,
one triple per returned id. -/
theorem claim_C5_retrieval_reshape (emb : String → Vec)
    (engineQuery : Collection → Vec → Nat → QueryResult) (s : Store)
    (cn qt : String) (n : Nat) (c : Collection) (r : QueryResult)
    (hc : s.findCollection cn = some c)
    (hr : engineQuery c (emb qt) n = r)
    (h1 : r.metaTexts.length = r.ids.length)
    (h2 : r.distances.length = r.ids.length) :
    ∃ out,
      VectorDB.retrieve_similar_documents emb engineQuery s cn qt n =
          .ok out ∧
        out = List.zipWith (fun (p : String × String) (d : Rat) =>
          (p.1, p.2, 1 - d)) (r.ids.zip r.metaTexts) r.distances ∧
        out.length = r.ids.length := by
  refine ⟨VectorDB.reshape r.ids r.metaTexts r.distances, ?_, ?_, ?_⟩
  · simp [VectorDB.retrieve_similar_documents, clientGetCollection, hc, hr]
  · exact reshape_eq_zipWith r.ids r.metaTexts r.distances
  · rw [reshape_eq_zipWith, List.length_zipWith, List.length_zip, h1, h2]
    simp

/-- Witness for C5 at a one-document store and a one-hit engine reply. -/
theorem claim_C5_witness :
    ∃ out,
      VectorDB.retrieve_similar_documents embLen engine1 storeX "c" "q" 1 =
          .ok out ∧
        out = List.zipWith (fun (p : String × String) (d : Rat) =>
          (p.1, p.2, 1 - d))
          ((engine1 collX (embLen "q") 1).ids.zip
            (engine1 collX (embLen "q") 1).metaTexts)
          (engine1 collX (embLen "q") 1).distances ∧
        out.length = (engine1 collX (embLen "q") 1).ids.length :=
  claim_C5_retrieval_reshape embLen engine1 storeX "c" "q" 1 collX
    (engine1 collX (embLen "q") 1) rfl rfl rfl rfl

/-- C6, counterexample: in the caller-supplied-id variant the API layer
catches nothing, so the storage layer's collection-not-found condition on
update or delete surfaces as a generic server error, not as a 404-style
client error. -/
theorem claim_C6_counterexample :
    Api.update_document embLen ⟨[]⟩ "c" "d" "t" =
        (.serverError (.collectionNotFound "c"), ⟨[]⟩) ∧
      Api.delete_document ⟨[]⟩ "c" "d" =
        (.serverError (.collectionNotFound "c"), ⟨[]⟩) := by
  constructor <;> rfl

/-- C6, amended: in the engine-generated-id variant the API maps the
storage layer's not-found condition on update/delete to a 404 client error
and passes any other storage error through unmodified; in the
caller-supplied-id variant the API catches nothing and every storage error
surfaces unmodified as a generic server error. -/
theorem claim_C6_error_mapping :
    (∀ (emb : String → Vec) (c : Collection) (id t m : String),
        SrcDB.update_document emb c id t = .error (.notFound m) →
        SrcApi.update_existing_document emb c id t =
          (.clientError 404 m, c)) ∧
    (∀ (c : Collection) (id m : String),
        SrcDB.delete_document c id = .error (.notFound m) →
        SrcApi.delete_existing_document c id = (.clientError 404 m, c)) ∧
    (∀ (emb : String → Vec) (c : Collection) (id t : String) (e : DBErr),
        SrcDB.update_document emb c id t = .error e →
        (∀ m, e ≠ .notFound m) →
        SrcApi.update_existing_document emb c id t = (.serverError e, c)) ∧
    (∀ (c : Collection) (id : String) (e : DBErr),
        SrcDB.delete_document c id = .error e → (∀ m, e ≠ .notFound m) →
        SrcApi.delete_existing_document c id = (.serverError e, c)) ∧
    (∀ (emb : String → Vec) (s : Store) (cn id t : String) (e : DBErr),
        VectorDB.update_document emb s cn id t = .error e →
        Api.update_document emb s cn id t = (.serverError e, s)) ∧
    (∀ (s : Store) (cn id : String) (e : DBErr),
        VectorDB.delete_document s cn id = .error e →
        Api.delete_document s cn id = (.serverError e, s)) := by
  refine ⟨?_, ?_, ?_, ?_, ?_, ?_⟩
  · intro emb c id t m h
    simp [SrcApi.update_existing_document, h]
  · intro c id m h
    simp [SrcApi.delete_existing_document, h]
  · intro emb c id t e h hne
    cases e with
    | notFound m => exact absurd rfl (hne m)
    | collectionNotFound nm => simp [SrcApi.update_existing_document, h]
    | idExists i => simp [SrcApi.update_existing_document, h]
    | uniqueConstraint nm => simp [SrcApi.update_existing_document, h]
  · intro c id e h hne
    cases e with
    | notFound m => exact absurd rfl (hne m)
    | collectionNotFound nm => simp [SrcApi.delete_existing_document, h]
    | idExists i => simp [SrcApi.delete_existing_document, h]
    | uniqueConstraint nm => simp [SrcApi.delete_existing_document, h]
  · intro emb s cn id t e h
    simp [Api.update_document, h]
  · intro s cn id e h
    simp [Api.delete_document, h]

/-- Witness for C6: a not-found raised by the storage layer is answered
with a 404 client error by the API handler. -/
theorem claim_C6_witness :
    SrcApi.update_existing_document embLen collX "y" "t" =
      (.clientError 404 "y", collX) :=
  claim_C6_error_mapping.1 embLen collX "y" "t" "y" rfl

/-- C7: the stored embedding of every document equals the embedding
function applied to the document's current text; this holds in the empty
store and is preserved by every operation of both variants (embeddings
are recomputed from current text on every mutation, never stale). -/
theorem claim_C7_embeddings_recomputed (emb : String → Vec) :
    Store.embCorrect emb ⟨[]⟩ = true ∧
    (∀ (s : Store) (n : String), Store.embCorrect emb s = true →
        Store.embCorrect emb (VectorDB.create_collection s n).1 = true) ∧
    (∀ (s s2 : Store) (cn id t : String), Store.embCorrect emb s = true →
        VectorDB.insert_document emb s cn id t = .ok s2 →
        Store.embCorrect emb s2 = true) ∧
    (∀ (s s2 : Store) (cn id t : String), Store.embCorrect emb s = true →
        VectorDB.update_document emb s cn id t = .ok s2 →
        Store.embCorrect emb s2 = true) ∧
    (∀ (s s2 : Store) (cn id : String), Store.embCorrect emb s = true →
        VectorDB.delete_document s cn id = .ok s2 →
        Store.embCorrect emb s2 = true) ∧
    (∀ (s : Store) (n : String), Store.embCorrect emb s = true →
        Store.embCorrect emb (VectorDB.delete_collection s n) = true) ∧
    (∀ (c c2 : Collection) (gid t rid : String),
        Collection.embCorrect emb c = true →
        SrcDB.insert_document emb c gid t = .ok (c2, rid) →
        Collection.embCorrect emb c2 = true) ∧
    (∀ (c c2 : Collection) (id t : String),
        Collection.embCorrect emb c = true →
        SrcDB.update_document emb c id t = .ok c2 →
        Collection.embCorrect emb c2 = true) ∧
    (∀ (c c2 : Collection) (id : String),
        Collection.embCorrect emb c = true →
        SrcDB.delete_document c id = .ok c2 →
        Collection.embCorrect emb c2 = true) := by
  refine ⟨rfl, ?_, ?_, ?_, ?_, ?_, ?_, ?_, ?_⟩
  · intro s n hs
    exact (embCorrect_getOrCreate s n hs).1
  · intro s s2 cn id t hs h
    exact insert_document_embCorrect hs h
  · intro s s2 cn id t hs h
    exact update_document_embCorrect hs h
  · intro s s2 cn id hs h
    exact delete_document_embCorrect hs h
  · intro s n hs
    exact delete_collection_embCorrect s n hs
  · intro c c2 gid t rid hc h
    exact srcdb_insert_embCorrect hc h
  · intro c c2 id t hc h
    exact srcdb_update_embCorrect hc h
  · intro c c2 id hc h
    exact srcdb_delete_embCorrect hc h

/-- Witness for C7: inserting into a concrete store yields a store whose
stored embedding is the embedding of the inserted text. -/
theorem claim_C7_witness : Store.embCorrect embLen storeCD = true :=
  (claim_C7_embeddings_recomputed embLen).2.2.1 storeC storeCD
    "c" "d" "t" rfl rfl

/-- C8: in every reachable state of either variant, each document id
occurs at most once within its collection; uniqueness is preserved by
insert, update and delete, including the engine-generated-id variant. -/
theorem claim_C8_document_ids_unique (emb : String → Vec) :
    (∀ s : Store, ReachA emb s → Store.idsUnique s) ∧
    (∀ c : Collection, ReachB emb c → Collection.idsUnique c) := by
  constructor
  · intro s h
    induction h with
    | init => intro c hc; simp at hc
    | createColl n _ ih => exact (idsUnique_getOrCreate _ n ih).1
    | insertDoc cn id t _ he ih => exact insert_document_uniq ih he
    | updateDoc cn id t _ he ih => exact update_document_uniq ih he
    | deleteDoc cn id _ he ih => exact delete_document_uniq ih he
    | deleteColl n _ ih => exact delete_collection_uniq _ n ih
  · intro c h
    induction h with
    | created n => exact List.nodup_nil
    | insertDoc gid t _ he ih => exact srcdb_insert_uniq ih he
    | updateDoc id t _ he ih => exact srcdb_update_uniq ih he
    | deleteDoc id _ he ih => exact srcdb_delete_uniq ih he

/-- Witness for C8 at concrete reachable states of both variants. -/
theorem claim_C8_witness :
    Store.idsUnique (VectorDB.create_collection ⟨[]⟩ "c").1 ∧
      Collection.idsUnique (⟨"c", []⟩ : Collection) :=
  ⟨(claim_C8_document_ids_unique embLen).1 _
      (ReachA.createColl "c" ReachA.init),
    (claim_C8_document_ids_unique embLen).2 _ (ReachB.created "c")⟩

/-- C9: in the caller-supplied-id variant, insert on a nonexistent
collection succeeds by implicitly creating it, while update, delete and
retrieve on a nonexistent collection raise the collection-not-found
error. -/
theorem claim_C9_asymmetric_precondition (emb : String → Vec)
    (engineQuery : Collection → Vec → Nat → QueryResult) (s : Store)
    (cn id t qt : String) (n : Nat) (h : s.findCollection cn = none) :
    (∃ s2, VectorDB.insert_document emb s cn id t = .ok s2 ∧
        s2.findCollection cn = some ⟨cn, [⟨id, t, emb t⟩]⟩) ∧
    VectorDB.update_document emb s cn id t =
      .error (.collectionNotFound cn) ∧
    VectorDB.delete_document s cn id = .error (.collectionNotFound cn) ∧
    VectorDB.retrieve_similar_documents emb engineQuery s cn qt n =
      .error (.collectionNotFound cn) := by
  refine ⟨?_, ?_, ?_, ?_⟩
  · have hadd : collAdd ⟨cn, []⟩ id t (emb t) =
        .ok ⟨cn, [⟨id, t, emb t⟩]⟩ := rfl
    refine ⟨(⟨s.collections ++ [⟨cn, []⟩]⟩ : Store).setCollection
        ⟨cn, [⟨id, t, emb t⟩]⟩, ?_, ?_⟩
    · simp [VectorDB.insert_document, clientGetOrCreateCollection, h, hadd]
    · apply findCollection_set_self _ _ _ rfl
      have h0 : List.find? (fun c => c.name == cn) s.collections = none := h
      rw [Store.findCollection, List.find?_append, h0]
      simp [List.find?_cons]
  · simp [VectorDB.update_document, clientGetCollection, h]
  · simp [VectorDB.delete_document, clientGetCollection, h]
  · simp [VectorDB.retrieve_similar_documents, clientGetCollection, h]

/-- Witness for C9 at the empty store. -/
theorem claim_C9_witness :
    (∃ s2, VectorDB.insert_document embLen ⟨[]⟩ "c" "d" "t" = .ok s2 ∧
        s2.findCollection "c" = some ⟨"c", [⟨"d", "t", embLen "t"⟩]⟩) ∧
    VectorDB.update_document embLen ⟨[]⟩ "c" "d" "t" =
      .error (.collectionNotFound "c") ∧
    VectorDB.delete_document ⟨[]⟩ "c" "d" =
      .error (.collectionNotFound "c") ∧
    VectorDB.retrieve_similar_documents embLen engine1 ⟨[]⟩ "c" "q" 3 =
      .error (.collectionNotFound "c") :=
  claim_C9_asymmetric_precondition embLen engine1 ⟨[]⟩ "c" "d" "t" "q" 3 rfl

/-- C10: `delete_collection` removes exactly the named collection when it
exists, leaving every other collection and its documents unchanged; when
the name does not exist it raises no error and returns the store
unchanged. -/
theorem claim_C10_delete_collection_exact (s : Store) (nm : String) :
    ((s.findCollection nm).isSome = true →
        (VectorDB.delete_collection s nm).findCollection nm = none ∧
        ∀ n2, n2 ≠ nm →
          (VectorDB.delete_collection s nm).findCollection n2 =
            s.findCollection n2) ∧
    (s.findCollection nm = none → VectorDB.delete_collection s nm = s) := by
  constructor
  · intro h
    have hb : ((clientListNames s).contains nm) = true :=
      (clientListNames_contains_iff s nm).mpr h
    unfold VectorDB.delete_collection
    rw [if_pos hb]
    exact ⟨clientDeleteCollection_find_self s nm,
      fun n2 hn2 => clientDeleteCollection_find_other s nm n2 hn2⟩
  · intro h
    have hb : ¬ ((clientListNames s).contains nm) = true := by
      rw [clientListNames_contains_iff, h]
      simp
    unfold VectorDB.delete_collection
    rw [if_neg hb]

/-- Witness for C10 at a present and an absent collection name. -/
theorem claim_C10_witness :
    (VectorDB.delete_collection storeC "c").findCollection "c" = none ∧
      VectorDB.delete_collection ⟨[]⟩ "c" = ⟨[]⟩ :=
  ⟨((claim_C10_delete_collection_exact storeC "c").1 rfl).1,
    (claim_C10_delete_collection_exact ⟨[]⟩ "c").2 rfl⟩

end VecStore
